import Mathlib

/-!
# LSM9DS1 basic I2C example: acquisition gate, print throttle, attitude

A shallow embedding of `examples/LSM9DS1_Basic_I2C/LSM9DS1_Basic_I2C.cpp`.

* `printAttitude` (source lines 227-254) is embedded over the real numbers:
  `float` values are idealised as exact reals, the macro `PI` as the number π,
  and `atan2`/`sqrt` as the mathematical functions. The function returns the
  three values it prints, in print order `(pitch, roll, heading)`.
* The main loop (source lines 119-160) is embedded over an explicit sensor
  state. The millisecond clock and `lastPrint` are 32-bit unsigned integers,
  embedded as natural numbers with explicit reduction modulo `2 ^ 32`.
-/

namespace LSM9DS1

set_option linter.unusedVariables false

/-! ## Numeric constants of the sketch -/

/-- The macro `PI` (source line 67), idealised as the real number π. -/
noncomputable def PI : ℝ := Real.pi

/-- The macro `PRINT_SPEED` (source line 81): milliseconds between prints. -/
def PRINT_SPEED : ℕ := 250

/-- The macro `DECLINATION` (source line 88), in degrees. -/
noncomputable def DECLINATION : ℝ := -8.58

/-- Number of values of a 32-bit unsigned integer (`unsigned long` and
`uint32_t` on the RP2040). -/
def WORD : ℕ := 2 ^ 32

/-! ## The C library functions used by `printAttitude` -/

/-- The two-argument arctangent `atan2(y, x)` of the C library over exact
reals: the angle in `(-π, π]` of the point `(x, y)`, with `atan2(0, 0) = 0`. -/
noncomputable def atan2 (y x : ℝ) : ℝ :=
  if 0 < x then Real.arctan (y / x)
  else if x < 0 then
    if 0 ≤ y then Real.arctan (y / x) + Real.pi else Real.arctan (y / x) - Real.pi
  else if 0 < y then Real.pi / 2
  else if y < 0 then -(Real.pi / 2)
  else 0

/-! ## `printAttitude` (source lines 227-254) -/

/-- Line 229: `float roll = atan2(ay, az);` (radians). -/
noncomputable def rollRad (ay az : ℝ) : ℝ := atan2 ay az

/-- Line 230: `float pitch = atan2(-ax, sqrt(ay * ay + az * az));` (radians). -/
noncomputable def pitchRad (ax ay az : ℝ) : ℝ :=
  atan2 (-ax) (Real.sqrt (ay * ay + az * az))

/-- Lines 232-236: the heading before the declination is applied. -/
noncomputable def headingRaw (mx my : ℝ) : ℝ :=
  if my = 0 then (if mx < 0 then PI else 0) else atan2 mx my

/-- Lines 240-243: the single `if / else if` wraparound correction. -/
noncomputable def wrapHeading (heading : ℝ) : ℝ :=
  if heading > PI then heading - 2 * PI
  else if heading < -PI then heading + 2 * PI
  else heading

/-- Lines 232-246: the heading in degrees; `declination` stands for the macro
`DECLINATION` of line 238. -/
noncomputable def headingDeg (declination mx my : ℝ) : ℝ :=
  wrapHeading (headingRaw mx my - declination * PI / 180) * (180 / PI)

/-- The function `printAttitude` with the macro `DECLINATION` as its first
argument; the result is the triple `(pitch, roll, heading)` of printed values,
in degrees. -/
noncomputable def printAttitude (declination ax ay az mx my mz : ℝ) : ℝ × ℝ × ℝ :=
  let roll := rollRad ay az
  let pitch := pitchRad ax ay az
  let heading := headingDeg declination mx my
  let pitch := pitch * (180 / PI)
  let roll := roll * (180 / PI)
  (pitch, roll, heading)

/-! ## The sensor object and the main loop (source lines 119-160) -/

/-- The three measurement channels of the sensor. -/
inductive Channel where
  | gyro
  | accel
  | mag
  deriving DecidableEq, Repr

/-- Modelled from the spec: the `LSM9DS1` driver object `imu` (its class is
declared in `LSM9DS1.h`, which is not part of the example). It holds the nine
raw sample fields, one availability flag per channel, the values the device
will deliver on the next read of each channel, and a log of the reads issued
so far. -/
structure IMU where
  gx : ℤ
  gy : ℤ
  gz : ℤ
  ax : ℤ
  ay : ℤ
  az : ℤ
  mx : ℤ
  my : ℤ
  mz : ℤ
  gyroFresh : Bool
  accelFresh : Bool
  magFresh : Bool
  gyroOut : ℤ × ℤ × ℤ
  accelOut : ℤ × ℤ × ℤ
  magOut : ℤ × ℤ × ℤ
  reads : List Channel
  deriving DecidableEq, Repr

/-- Modelled from the spec: `imu.gyroAvailable()`, the availability predicate
of the angular-rate channel. -/
def IMU.gyroAvailable (imu : IMU) : Bool := imu.gyroFresh

/-- Modelled from the spec: `imu.accelAvailable()`. -/
def IMU.accelAvailable (imu : IMU) : Bool := imu.accelFresh

/-- Modelled from the spec: `imu.magAvailable()`. -/
def IMU.magAvailable (imu : IMU) : Bool := imu.magFresh

/-- Modelled from the spec: `imu.readGyro()` overwrites `gx, gy, gz` in place
and resets the channel's availability predicate; nothing else changes. -/
def IMU.readGyro (imu : IMU) : IMU :=
  { imu with
    gx := imu.gyroOut.1, gy := imu.gyroOut.2.1, gz := imu.gyroOut.2.2,
    gyroFresh := false, reads := imu.reads ++ [Channel.gyro] }

/-- Modelled from the spec: `imu.readAccel()` overwrites `ax, ay, az` in place
and resets the channel's availability predicate; nothing else changes. -/
def IMU.readAccel (imu : IMU) : IMU :=
  { imu with
    ax := imu.accelOut.1, ay := imu.accelOut.2.1, az := imu.accelOut.2.2,
    accelFresh := false, reads := imu.reads ++ [Channel.accel] }

/-- Modelled from the spec: `imu.readMag()` overwrites `mx, my, mz` in place
and resets the channel's availability predicate; nothing else changes. -/
def IMU.readMag (imu : IMU) : IMU :=
  { imu with
    mx := imu.magOut.1, my := imu.magOut.2.1, mz := imu.magOut.2.2,
    magFresh := false, reads := imu.reads ++ [Channel.mag] }

/-- The availability predicate of a channel. -/
def IMU.available (imu : IMU) : Channel → Bool
  | Channel.gyro => imu.gyroAvailable
  | Channel.accel => imu.accelAvailable
  | Channel.mag => imu.magAvailable

/-- The three stored sample fields of a channel. -/
def IMU.sample (imu : IMU) : Channel → ℤ × ℤ × ℤ
  | Channel.gyro => (imu.gx, imu.gy, imu.gz)
  | Channel.accel => (imu.ax, imu.ay, imu.az)
  | Channel.mag => (imu.mx, imu.my, imu.mz)

/-- Number of reads of a channel issued so far. -/
def IMU.readCount (imu : IMU) (c : Channel) : ℕ := imu.reads.count c

/-- Source lines 123-143: the three availability checks at the top of the
main loop, each followed by the read of its channel. -/
def acquisitionGate (imu : IMU) : IMU :=
  let imu := if imu.gyroAvailable then imu.readGyro else imu
  let imu := if imu.accelAvailable then imu.readAccel else imu
  let imu := if imu.magAvailable then imu.readMag else imu
  imu

/-- Source line 145: the test `(lastPrint + PRINT_SPEED) < now`, where the sum
is a 32-bit unsigned addition. -/
def printDue (lastPrint now : ℕ) : Bool :=
  decide ((lastPrint + PRINT_SPEED) % WORD < now)

/-- Milliseconds elapsed from `lastPrint` to `now` on the 32-bit clock:
`(now - lastPrint) mod 2 ^ 32`. -/
def elapsedMs (lastPrint now : ℕ) : ℕ := (now + WORD - lastPrint % WORD) % WORD

/-- The state carried by the main loop: the sensor object, the timer
`lastPrint` (source line 82) and the number of print blocks run so far. -/
structure LoopState where
  imu : IMU
  lastPrint : ℕ
  printed : ℕ
  deriving DecidableEq, Repr

/-- One iteration of the main loop (source lines 121-159); `now` is the clock
reading of the test in line 145 and `later` the reading stored in line 158. -/
def loopBody (st : LoopState) (now later : ℕ) : LoopState :=
  let imu := acquisitionGate st.imu
  if printDue st.lastPrint now then
    { imu := imu, lastPrint := later % WORD, printed := st.printed + 1 }
  else
    { st with imu := imu }

/-- Source lines 154-155: the call of `printAttitude` from the main loop, with
the raw fields converted to `float` and the magnetometer axes negated and
swapped. -/
noncomputable def attitudeCall (imu : IMU) : ℝ × ℝ × ℝ :=
  printAttitude DECLINATION imu.ax imu.ay imu.az (-imu.my) (-imu.mx) imu.mz

/-- A sensor state in which only the accelerometer has a fresh sample. -/
def accelOnlyIMU : IMU :=
  { gx := 1, gy := 2, gz := 3, ax := 4, ay := 5, az := 6, mx := 7, my := 8, mz := 9,
    gyroFresh := false, accelFresh := true, magFresh := false,
    gyroOut := (10, 20, 30), accelOut := (40, 50, 60), magOut := (70, 80, 90),
    reads := [] }

/-- A loop state about 50 days after boot: the last print was at
`2 ^ 32 - 1296` ms and nothing has been printed by the iterations counted. -/
def lateState : LoopState :=
  { imu := accelOnlyIMU, lastPrint := 4294966000, printed := 0 }

/-! ## Facts about `atan2` -/

theorem PI_pos : 0 < PI := Real.pi_pos

/-- Scaling by a positive factor keeps a number negative or not. -/
theorem mul_neg_iff_left {k : ℝ} (hk : 0 < k) (x : ℝ) : k * x < 0 ↔ x < 0 := by
  constructor
  · intro h
    by_contra hx
    exact absurd h (not_lt.mpr (mul_nonneg hk.le (not_lt.mp hx)))
  · intro h
    exact mul_neg_of_pos_of_neg hk h

theorem atan2_of_pos (y : ℝ) {x : ℝ} (hx : 0 < x) : atan2 y x = Real.arctan (y / x) := by
  simp [atan2, hx]

theorem atan2_zero_right_of_pos {y : ℝ} (hy : 0 < y) : atan2 y 0 = Real.pi / 2 := by
  simp [atan2, hy]

theorem atan2_zero_right_of_neg {y : ℝ} (hy : y < 0) : atan2 y 0 = -(Real.pi / 2) := by
  simp [atan2, hy, not_lt.mpr hy.le]

theorem atan2_zero_zero : atan2 0 0 = 0 := by
  simp [atan2]

/-- The value of `atan2` lies in `(-π, π]`. -/
theorem atan2_mem (y x : ℝ) : -Real.pi < atan2 y x ∧ atan2 y x ≤ Real.pi := by
  have hpi := Real.pi_pos
  have hlo := Real.neg_pi_div_two_lt_arctan (y / x)
  have hhi := Real.arctan_lt_pi_div_two (y / x)
  unfold atan2
  split_ifs with h1 h2 h3 h4 h5
  · constructor <;> linarith
  · have hq : y / x ≤ 0 := div_nonpos_of_nonneg_of_nonpos h3 h2.le
    have : Real.arctan (y / x) ≤ 0 := by
      have := Real.arctan_strictMono.monotone hq
      simpa using this
    constructor <;> linarith
  · have hq : 0 < y / x := div_pos_of_neg_of_neg (not_le.mp h3) h2
    have : 0 < Real.arctan (y / x) := by
      have := Real.arctan_strictMono hq
      simpa using this
    constructor <;> linarith
  · constructor <;> linarith
  · constructor <;> linarith
  · constructor <;> linarith

/-- With a non-negative second argument, `atan2` lies in `[-π/2, π/2]`. -/
theorem atan2_mem_of_nonneg (y : ℝ) {x : ℝ} (hx : 0 ≤ x) :
    -(Real.pi / 2) ≤ atan2 y x ∧ atan2 y x ≤ Real.pi / 2 := by
  have hpi := Real.pi_pos
  have hlo := Real.neg_pi_div_two_lt_arctan (y / x)
  have hhi := Real.arctan_lt_pi_div_two (y / x)
  unfold atan2
  split_ifs with h1 h2 h3 h4 h5
  · constructor <;> linarith
  · exact absurd hx (not_le.mpr h2)
  · exact absurd hx (not_le.mpr h2)
  · constructor <;> linarith
  · constructor <;> linarith
  · constructor <;> linarith

/-- Scaling both arguments by a positive factor does not change `atan2`. -/
theorem atan2_scale (y x : ℝ) {k : ℝ} (hk : 0 < k) : atan2 (k * y) (k * x) = atan2 y x := by
  have hq : k * y / (k * x) = y / x := mul_div_mul_left y x hk.ne'
  have c1 : (0 < k * x) = (0 < x) := propext (mul_pos_iff_of_pos_left hk)
  have c2 : (k * x < 0) = (x < 0) := propext (mul_neg_iff_left hk x)
  have c3 : (0 ≤ k * y) = (0 ≤ y) := propext (mul_nonneg_iff_of_pos_left hk)
  have c4 : (0 < k * y) = (0 < y) := propext (mul_pos_iff_of_pos_left hk)
  have c5 : (k * y < 0) = (y < 0) := propext (mul_neg_iff_left hk y)
  unfold atan2
  simp only [hq, c1, c2, c3, c4, c5]

/-! ## Radians to degrees -/

theorem deg_factor_pos : 0 < 180 / PI := div_pos (by norm_num) PI_pos

theorem PI_deg : PI * (180 / PI) = 180 := by
  have h : PI ≠ 0 := PI_pos.ne'
  field_simp

theorem neg_PI_deg : -PI * (180 / PI) = -180 := by
  rw [neg_mul, PI_deg]

theorem half_PI_deg : PI / 2 * (180 / PI) = 90 := by
  have h : PI ≠ 0 := PI_pos.ne'
  field_simp
  ring

theorem deg_le_of_le {x : ℝ} (h : x ≤ PI) : x * (180 / PI) ≤ 180 := by
  have := mul_le_mul_of_nonneg_right h deg_factor_pos.le
  rwa [PI_deg] at this

theorem le_deg_of_le {x : ℝ} (h : -PI ≤ x) : -180 ≤ x * (180 / PI) := by
  have := mul_le_mul_of_nonneg_right h deg_factor_pos.le
  rwa [neg_PI_deg] at this

theorem lt_deg_of_lt {x : ℝ} (h : -PI < x) : -180 < x * (180 / PI) := by
  have := mul_lt_mul_of_pos_right h deg_factor_pos
  rwa [neg_PI_deg] at this

/-! ## The components of `printAttitude` -/

theorem printAttitude_pitch (d ax ay az mx my mz : ℝ) :
    (printAttitude d ax ay az mx my mz).1 = pitchRad ax ay az * (180 / PI) := rfl

theorem printAttitude_roll (d ax ay az mx my mz : ℝ) :
    (printAttitude d ax ay az mx my mz).2.1 = rollRad ay az * (180 / PI) := rfl

theorem printAttitude_heading (d ax ay az mx my mz : ℝ) :
    (printAttitude d ax ay az mx my mz).2.2 = headingDeg d mx my := rfl

/-! ## Heading: raw value, wraparound, range -/

/-- The heading before the declination is applied lies in `(-π, π]`. -/
theorem headingRaw_mem (mx my : ℝ) : -PI < headingRaw mx my ∧ headingRaw mx my ≤ PI := by
  have hpi := PI_pos
  unfold headingRaw
  split_ifs with h1 h2
  · constructor <;> linarith
  · constructor <;> linarith
  · exact atan2_mem mx my

/-- The wraparound correction maps `(-2π, 2π]` into `[-π, π]`. -/
theorem wrapHeading_mem {h : ℝ} (hlo : -(2 * PI) < h) (hhi : h ≤ 2 * PI) :
    -PI ≤ wrapHeading h ∧ wrapHeading h ≤ PI := by
  have hpi := PI_pos
  unfold wrapHeading
  split_ifs with h1 h2
  · constructor <;> linarith
  · constructor <;> linarith
  · constructor <;> linarith

/-- The wraparound correction maps `(-π, 2π]` into `(-π, π]`. -/
theorem wrapHeading_mem_of_gt {h : ℝ} (hlo : -PI < h) (hhi : h ≤ 2 * PI) :
    -PI < wrapHeading h ∧ wrapHeading h ≤ PI := by
  have hpi := PI_pos
  unfold wrapHeading
  split_ifs with h1 h2
  · constructor <;> linarith
  · constructor <;> linarith
  · constructor <;> linarith

/-- The declination in radians is within `[-π, π]` when the declination in
degrees is within `[-180, 180]`. -/
theorem declination_rad_mem {d : ℝ} (hlo : -180 ≤ d) (hhi : d ≤ 180) :
    -PI ≤ d * PI / 180 ∧ d * PI / 180 ≤ PI := by
  have hpi := PI_pos
  constructor
  · rw [le_div_iff₀ (by norm_num : (0 : ℝ) < 180)]
    nlinarith
  · rw [div_le_iff₀ (by norm_num : (0 : ℝ) < 180)]
    nlinarith

/-- Range of the heading in degrees for a declination in `[-180, 180]`: the
closed interval `[-180, 180]`, and `-180` is excluded when the declination
is not positive. -/
theorem headingDeg_mem (d mx my : ℝ) (hlo : -180 ≤ d) (hhi : d ≤ 180) :
    -180 ≤ headingDeg d mx my ∧ headingDeg d mx my ≤ 180 ∧
      (d ≤ 0 → -180 < headingDeg d mx my) := by
  have hpi := PI_pos
  obtain ⟨r1, r2⟩ := headingRaw_mem mx my
  obtain ⟨d1, d2⟩ := declination_rad_mem hlo hhi
  have w := wrapHeading_mem (h := headingRaw mx my - d * PI / 180)
    (by linarith) (by linarith)
  unfold headingDeg
  refine ⟨le_deg_of_le w.1, deg_le_of_le w.2, ?_⟩
  intro hd
  have d3 : d * PI / 180 ≤ 0 := by
    apply div_nonpos_of_nonpos_of_nonneg _ (by norm_num)
    exact mul_nonpos_of_nonpos_of_nonneg hd hpi.le
  have w2 := wrapHeading_mem_of_gt (h := headingRaw mx my - d * PI / 180)
    (by linarith) (by linarith)
  exact lt_deg_of_lt w2.1

theorem atan2_zero_one : atan2 0 1 = 0 := by
  simp [atan2]

theorem atan2_one_one : atan2 1 1 = Real.pi / 4 := by
  simp [atan2]

theorem wrapHeading_zero : wrapHeading 0 = 0 := by
  have hpi := PI_pos
  simp [wrapHeading, not_lt.mpr hpi.le]

theorem wrapHeading_PI : wrapHeading PI = PI := by
  have hpi := PI_pos
  have h : ¬ PI < -PI := by linarith
  simp [wrapHeading, h]

theorem wrapHeading_neg_PI : wrapHeading (-PI) = -PI := by
  have hpi := PI_pos
  have h : ¬ -PI > PI := by
    intro h'
    linarith
  simp only [wrapHeading, h, lt_irrefl, if_false]

/-- With declination 0 and `my = 0` the heading is 180 for negative `mx`. -/
theorem headingDeg_degenerate_neg {mx : ℝ} (h : mx < 0) : headingDeg 0 mx 0 = 180 := by
  simp [headingDeg, headingRaw, h, wrapHeading_PI, PI_deg]

/-- With declination 0 and `my = 0` the heading is 0 for non-negative `mx`. -/
theorem headingDeg_degenerate_nonneg {mx : ℝ} (h : 0 ≤ mx) : headingDeg 0 mx 0 = 0 := by
  simp [headingDeg, headingRaw, not_lt.mpr h, wrapHeading_zero]

/-- The heading at `mx = 1`, `my = 1` with declination 225 is `-180`. -/
theorem headingDeg_225 : headingDeg 225 1 1 = -180 := by
  have e : headingRaw 1 1 - 225 * PI / 180 = -PI := by
    simp only [headingRaw, one_ne_zero, if_false, atan2_one_one, PI]
    ring
  rw [headingDeg, e, wrapHeading_neg_PI, neg_PI_deg]

/-- The heading at `mx = 0`, `my = 1` with declination 180 is `-180`. -/
theorem headingDeg_180 : headingDeg 180 0 1 = -180 := by
  have e : headingRaw 0 1 - 180 * PI / 180 = -PI := by
    simp only [headingRaw, one_ne_zero, if_false, atan2_zero_one]
    ring
  rw [headingDeg, e, wrapHeading_neg_PI, neg_PI_deg]

/-! ## Claims about the heading -/

/-- C1, as stated, fails: with declination 180 and `(mx, my) = (0, 1)` the
raw heading is 0, the declination subtraction gives exactly `-π`, neither
branch of the correction fires, and the printed heading is `-180`, which is
not strictly greater than `-180`. -/
theorem C1_counterexample :
    (-180 : ℝ) ≤ 180 ∧ (180 : ℝ) ≤ 180 ∧
      (printAttitude 180 0 0 1 0 1 0).2.2 = -180 ∧
      ¬ (-180 < (printAttitude 180 0 0 1 0 1 0).2.2 ∧
          (printAttitude 180 0 0 1 0 1 0).2.2 ≤ 180) := by
  rw [printAttitude_heading, headingDeg_180]
  norm_num

/-- C1, amended: for every `mx`, `my` and every declination `d` with
`-180 ≤ d ≤ 180`, the heading in degrees after the declination subtraction
and the single `if / else if` correction lies in the closed interval
`[-180, 180]`; it is strictly greater than `-180` whenever `d ≤ 0`. -/
theorem C1_heading_range (d ax ay az mx my mz : ℝ) (hlo : -180 ≤ d) (hhi : d ≤ 180) :
    -180 ≤ (printAttitude d ax ay az mx my mz).2.2 ∧
      (printAttitude d ax ay az mx my mz).2.2 ≤ 180 ∧
      (d ≤ 0 → -180 < (printAttitude d ax ay az mx my mz).2.2) := by
  rw [printAttitude_heading]
  exact headingDeg_mem d mx my hlo hhi

/-- C1, amended, at declination 180 and `(mx, my) = (0, 1)`. -/
theorem C1_heading_range_witness :
    -180 ≤ (printAttitude 180 0 0 1 0 1 0).2.2 ∧
      (printAttitude 180 0 0 1 0 1 0).2.2 ≤ 180 ∧
      ((180 : ℝ) ≤ 0 → -180 < (printAttitude 180 0 0 1 0 1 0).2.2) :=
  C1_heading_range 180 0 0 1 0 1 0 (by norm_num) (by norm_num)

/-- C2, as stated, fails: for `mx = 1`, `my = 1` a declination of 225 degrees
does not yield a heading of `-90` degrees, and the heading is not in
`(-180, 180]`. -/
theorem C2_counterexample :
    (printAttitude 225 0 0 1 1 1 0).2.2 ≠ -90 ∧
      ¬ (-180 < (printAttitude 225 0 0 1 1 1 0).2.2) := by
  rw [printAttitude_heading, headingDeg_225]
  norm_num

/-- C2, amended: for `mx = 1`, `my = 1` and any `ax, ay, az, mz`, a
declination of 225 degrees yields a heading of `-180` degrees, which lies in
the closed interval `[-180, 180]`. -/
theorem C2_declination_225 (ax ay az mz : ℝ) :
    (printAttitude 225 ax ay az 1 1 mz).2.2 = -180 ∧
      -180 ≤ (printAttitude 225 ax ay az 1 1 mz).2.2 ∧
      (printAttitude 225 ax ay az 1 1 mz).2.2 ≤ 180 := by
  rw [printAttitude_heading, headingDeg_225]
  norm_num

/-- C3: with declination 0 and `my = 0`, the heading is 180 degrees when
`mx < 0` and 0 degrees when `mx ≥ 0`, whatever `ax, ay, az, mz` are; in
particular `(mx, my) = (-1, 0)` gives 180 and `(1, 0)` gives 0. -/
theorem C3_degenerate_heading (ax ay az mx mz : ℝ) :
    (printAttitude 0 ax ay az mx 0 mz).2.2 = (if mx < 0 then 180 else 0) ∧
      (printAttitude 0 ax ay az (-1) 0 mz).2.2 = 180 ∧
      (printAttitude 0 ax ay az 1 0 mz).2.2 = 0 := by
  simp only [printAttitude_heading]
  refine ⟨?_, headingDeg_degenerate_neg (by norm_num), headingDeg_degenerate_nonneg (by norm_num)⟩
  split_ifs with h
  · exact headingDeg_degenerate_neg h
  · exact headingDeg_degenerate_nonneg (not_lt.mp h)

/-- C8: with the compiled-in `DECLINATION = -8.58`, for all `mx` and `my` (in
both the `my == 0` branch and the `atan2` branch) the heading in degrees
lies in `(-180, 180]`. -/
theorem C8_configured_heading_range (ax ay az mx my mz : ℝ) :
    -180 < (printAttitude DECLINATION ax ay az mx my mz).2.2 ∧
      (printAttitude DECLINATION ax ay az mx my mz).2.2 ≤ 180 := by
  rw [printAttitude_heading]
  have hlo : (-180 : ℝ) ≤ DECLINATION := by norm_num [DECLINATION]
  have hhi : DECLINATION ≤ 180 := by norm_num [DECLINATION]
  have hneg : DECLINATION ≤ 0 := by norm_num [DECLINATION]
  obtain ⟨_, h2, h3⟩ := headingDeg_mem DECLINATION mx my hlo hhi
  exact ⟨h3 hneg, h2⟩

/-- C10: with declination 0 and `my = 0`, for every `mx ≠ 0` the heading (180
if `mx < 0`, 0 if `mx > 0`) differs from `atan2(mx, 0)` in degrees (`-90` or
`90`), and equals `atan2(mx, 0)` in degrees minus 90, modulo 360. -/
theorem C10_degenerate_offset (ax ay az mx mz : ℝ) (hmx : mx ≠ 0) :
    (printAttitude 0 ax ay az mx 0 mz).2.2 ≠ atan2 mx 0 * (180 / PI) ∧
      (mx < 0 → (printAttitude 0 ax ay az mx 0 mz).2.2 = 180 ∧
        atan2 mx 0 * (180 / PI) = -90) ∧
      (0 < mx → (printAttitude 0 ax ay az mx 0 mz).2.2 = 0 ∧
        atan2 mx 0 * (180 / PI) = 90) ∧
      ∃ n : ℤ, (printAttitude 0 ax ay az mx 0 mz).2.2 =
        atan2 mx 0 * (180 / PI) - 90 + 360 * n := by
  simp only [printAttitude_heading]
  rcases lt_or_gt_of_ne hmx with h | h
  · have e1 : headingDeg 0 mx 0 = 180 := headingDeg_degenerate_neg h
    have e2 : atan2 mx 0 * (180 / PI) = -90 := by
      rw [atan2_zero_right_of_neg h]
      have := half_PI_deg
      simp only [PI] at this ⊢
      linarith
    rw [e1, e2]
    refine ⟨by norm_num, fun _ => ⟨rfl, rfl⟩, fun h' => absurd h' (not_lt.mpr h.le), 1, ?_⟩
    norm_num
  · have e1 : headingDeg 0 mx 0 = 0 := headingDeg_degenerate_nonneg (le_of_lt h)
    have e2 : atan2 mx 0 * (180 / PI) = 90 := by
      rw [atan2_zero_right_of_pos h]
      exact half_PI_deg
    rw [e1, e2]
    refine ⟨by norm_num, fun h' => absurd h' (not_lt.mpr (le_of_lt h)), fun _ => ⟨rfl, rfl⟩, 0, ?_⟩
    norm_num

/-- C10 at `mx = -1`. -/
theorem C10_degenerate_offset_witness :
    (printAttitude 0 0 0 1 (-1) 0 0).2.2 ≠ atan2 (-1) 0 * (180 / PI) ∧
      ((-1 : ℝ) < 0 → (printAttitude 0 0 0 1 (-1) 0 0).2.2 = 180 ∧
        atan2 (-1) 0 * (180 / PI) = -90) ∧
      ((0 : ℝ) < -1 → (printAttitude 0 0 0 1 (-1) 0 0).2.2 = 0 ∧
        atan2 (-1) 0 * (180 / PI) = 90) ∧
      ∃ n : ℤ, (printAttitude 0 0 0 1 (-1) 0 0).2.2 =
        atan2 (-1) 0 * (180 / PI) - 90 + 360 * n :=
  C10_degenerate_offset 0 0 1 (-1) 0 (by norm_num)

/-! ## Pitch, roll and scale invariance -/

/-- C6: for all real `ax, ay, az` (including `ay = az = 0` and the all-zero
input) the pitch `atan2(-ax, sqrt(ay*ay + az*az))` in degrees lies in the
closed interval `[-90, 90]`. -/
theorem C6_pitch_range (d ax ay az mx my mz : ℝ) :
    (printAttitude d ax ay az mx my mz).1 =
        atan2 (-ax) (Real.sqrt (ay * ay + az * az)) * (180 / PI) ∧
      -90 ≤ (printAttitude d ax ay az mx my mz).1 ∧
      (printAttitude d ax ay az mx my mz).1 ≤ 90 := by
  rw [printAttitude_pitch]
  obtain ⟨h1, h2⟩ := atan2_mem_of_nonneg (-ax) (Real.sqrt_nonneg (ay * ay + az * az))
  have e := half_PI_deg
  have f := deg_factor_pos
  refine ⟨rfl, ?_, ?_⟩
  · have := mul_le_mul_of_nonneg_right h1 f.le
    simp only [pitchRad]
    simp only [PI] at e this ⊢
    linarith
  · have := mul_le_mul_of_nonneg_right h2 f.le
    simp only [pitchRad]
    simp only [PI] at e this ⊢
    linarith

/-- C7: for `ax = 0, ay = 0, az = 1, mx = 0, my = 1, mz = 0` and declination 0
the three computed angles are exactly pitch 0, roll 0 and heading 0. -/
theorem C7_level_case : printAttitude 0 0 0 1 0 1 0 = (0, 0, 0) := by
  have hp : pitchRad 0 0 1 = 0 := by
    simp [pitchRad, atan2_zero_one]
  have hr : rollRad 0 1 = 0 := atan2_zero_one
  have hh : headingDeg 0 0 1 = 0 := by
    simp [headingDeg, headingRaw, atan2_zero_one, wrapHeading_zero]
  simp only [printAttitude, hp, hr, hh, zero_mul]

/-- The pitch in radians is unchanged by a positive scaling of the
acceleration triple. -/
theorem pitchRad_scale (ax ay az : ℝ) {k : ℝ} (hk : 0 < k) :
    pitchRad (k * ax) (k * ay) (k * az) = pitchRad ax ay az := by
  have e : Real.sqrt (k * ay * (k * ay) + k * az * (k * az)) =
      k * Real.sqrt (ay * ay + az * az) := by
    have : k * ay * (k * ay) + k * az * (k * az) = k * k * (ay * ay + az * az) := by ring
    rw [this, Real.sqrt_mul (mul_self_nonneg k), Real.sqrt_mul_self hk.le]
  unfold pitchRad
  rw [e, ← mul_neg, atan2_scale _ _ hk]

/-- The raw heading is unchanged by a positive scaling of the magnetic
pair. -/
theorem headingRaw_scale (mx my : ℝ) {j : ℝ} (hj : 0 < j) :
    headingRaw (j * mx) (j * my) = headingRaw mx my := by
  have c1 : (j * my = 0) = (my = 0) := by
    apply propext
    constructor
    · intro h
      rcases mul_eq_zero.mp h with h | h
      · exact absurd h hj.ne'
      · exact h
    · intro h
      rw [h, mul_zero]
  have c2 : (j * mx < 0) = (mx < 0) := propext (mul_neg_iff_left hj mx)
  unfold headingRaw
  simp only [c1, c2, atan2_scale mx my hj]

/-- Scale invariance of the whole estimator. -/
theorem printAttitude_scale (d ax ay az mx my mz : ℝ) {k j : ℝ} (hk : 0 < k) (hj : 0 < j) :
    printAttitude d (k * ax) (k * ay) (k * az) (j * mx) (j * my) (j * mz) =
      printAttitude d ax ay az mx my mz := by
  simp only [printAttitude, headingDeg, rollRad, pitchRad_scale ax ay az hk,
    headingRaw_scale mx my hj, atan2_scale ay az hk]

/-- C9: for all real inputs, every declination and all scale factors `k > 0`
and `j > 0`, the triple `(pitch, roll, heading)` computed from
`(k*ax, k*ay, k*az, j*mx, j*my, j*mz)` equals the triple computed from
`(ax, ay, az, mx, my, mz)`; hence the call of the main loop, which passes the
raw integer counts, gives the same angles as passing the counts multiplied by
positive sensitivity factors. -/
theorem C9_scale_invariance (d ax ay az mx my mz k j : ℝ) (hk : 0 < k) (hj : 0 < j) :
    printAttitude d (k * ax) (k * ay) (k * az) (j * mx) (j * my) (j * mz) =
        printAttitude d ax ay az mx my mz ∧
      ∀ imu : IMU,
        printAttitude DECLINATION (k * imu.ax) (k * imu.ay) (k * imu.az)
            (-(j * imu.my)) (-(j * imu.mx)) (j * imu.mz) =
          attitudeCall imu := by
  refine ⟨printAttitude_scale d ax ay az mx my mz hk hj, ?_⟩
  intro imu
  rw [← mul_neg, ← mul_neg]
  exact printAttitude_scale DECLINATION imu.ax imu.ay imu.az (-imu.my) (-imu.mx) imu.mz hk hj

/-- C9 at `k = 2`, `j = 3` and the input `(1, 2, 3, 1, 1, 0)` with
declination 0. -/
theorem C9_scale_invariance_witness :
    printAttitude 0 (2 * 1) (2 * 2) (2 * 3) (3 * 1) (3 * 1) (3 * 0) =
        printAttitude 0 1 2 3 1 1 0 ∧
      ∀ imu : IMU,
        printAttitude DECLINATION (2 * imu.ax) (2 * imu.ay) (2 * imu.az)
            (-(3 * imu.my)) (-(3 * imu.mx)) (3 * imu.mz) =
          attitudeCall imu :=
  C9_scale_invariance 0 1 2 3 1 1 0 2 3 (by norm_num) (by norm_num)

/-! ## The acquisition gate -/

/-- C4: for each channel, one gate pass issues exactly one read of that
channel when its availability predicate was true, after which the predicate
is false; it issues no read of that channel when the predicate was false, and
then the channel's three stored sample fields are unchanged. -/
theorem C4_acquisition_gate (imu : IMU) (c : Channel) :
    (imu.available c = true →
        (acquisitionGate imu).readCount c = imu.readCount c + 1 ∧
        (acquisitionGate imu).available c = false) ∧
      (imu.available c = false →
        (acquisitionGate imu).readCount c = imu.readCount c ∧
        (acquisitionGate imu).sample c = imu.sample c) := by
  obtain ⟨gx, gy, gz, ax, ay, az, mx, my, mz, fg, fa, fm, og, oa, om, rs⟩ := imu
  cases c <;> cases fg <;> cases fa <;> cases fm <;>
    simp [acquisitionGate, IMU.available, IMU.sample, IMU.readCount, IMU.gyroAvailable,
      IMU.accelAvailable, IMU.magAvailable, IMU.readGyro, IMU.readAccel, IMU.readMag,
      List.count_append]

/-- C4 on a state where only the accelerometer has fresh data: the gate reads
the accelerometer once and leaves the gyroscope sample alone. -/
theorem C4_acquisition_gate_witness :
    ((accelOnlyIMU.available Channel.accel = true →
        (acquisitionGate accelOnlyIMU).readCount Channel.accel =
          accelOnlyIMU.readCount Channel.accel + 1 ∧
        (acquisitionGate accelOnlyIMU).available Channel.accel = false) ∧
      (accelOnlyIMU.available Channel.accel = false →
        (acquisitionGate accelOnlyIMU).readCount Channel.accel =
          accelOnlyIMU.readCount Channel.accel ∧
        (acquisitionGate accelOnlyIMU).sample Channel.accel =
          accelOnlyIMU.sample Channel.accel)) ∧
      accelOnlyIMU.available Channel.accel = true ∧
      (acquisitionGate accelOnlyIMU).reads = [Channel.accel] ∧
      (acquisitionGate accelOnlyIMU).sample Channel.accel = (40, 50, 60) ∧
      (acquisitionGate accelOnlyIMU).sample Channel.gyro = (1, 2, 3) :=
  ⟨C4_acquisition_gate accelOnlyIMU Channel.accel, by decide, by decide, by decide, by decide⟩

/-! ## The print throttle -/

/-- An iteration of the main loop runs its print block exactly when the test
of line 145 succeeds. -/
theorem loopBody_printed (st : LoopState) (now later : ℕ) :
    (loopBody st now later).printed =
      if printDue st.lastPrint now then st.printed + 1 else st.printed := by
  unfold loopBody
  split_ifs <;> rfl

/-- While `lastPrint + PRINT_SPEED` does not exceed the 32-bit range and the
clock has not wrapped since the last print, the test of line 145 succeeds
exactly when more than 250 ms have elapsed. -/
theorem printDue_iff_of_no_wrap (lastPrint now : ℕ) (hsum : lastPrint + PRINT_SPEED < WORD)
    (hnow : now < WORD) (hle : lastPrint ≤ now) :
    printDue lastPrint now = true ↔ 250 < elapsedMs lastPrint now := by
  simp only [printDue, elapsedMs, PRINT_SPEED, WORD, decide_eq_true_eq] at *
  norm_num at *
  rw [Nat.mod_eq_of_lt hsum, Nat.mod_eq_of_lt (by omega : lastPrint < 4294967296)]
  omega

/-- C5 fails on the code when `lastPrint + 250` wraps around `2 ^ 32`: from a
state whose last print was at 4294966000 ms, the iteration at 4294967196 ms
prints (1196 ms elapsed) and stores that time; the next iteration, 10 ms
later at 4294967206 ms, prints again, because the 32-bit sum is 150. -/
theorem C5_throttle_wraparound :
    (loopBody lateState 4294967196 4294967196).lastPrint = 4294967196 ∧
      (4294967196 + PRINT_SPEED) % WORD = 150 ∧
      printDue 4294967196 4294967206 = true ∧
      elapsedMs 4294967196 4294967206 = 10 ∧
      (loopBody (loopBody lateState 4294967196 4294967196) 4294967206 4294967206).printed = 2 := by
  decide

end LSM9DS1
